import Mathlib

/-!
# Verification of the pg-objects reconciliation engine

Shallow embedding of the `pg_objects` reconciler (the package wired together by
`pg_objects/setup.py`): the statement model (`pg_objects/statements.py`), the
object model (`pg_objects/objects/…`), the observed-state classifier
(`ServerState` in `pg_objects/setup.py` together with the state providers it
inherits), the three-pass statement generator (`Setup._generate_stmts`) and the
graph with Kahn topological sort (`pg_objects/graph.py`).

SQL statements built by Python f-strings are embedded structurally: each
distinct statement shape produced by the source becomes a constructor of
`Query`, carrying exactly the data interpolated into the f-string.  Python
`set`s of privilege names become `Finset String`.  The md5 digest used by
`pg_objects/utils.py::get_password_md5` is provided by an external library
(`hashlib`), so the hex-digest function is a parameter of the embedding.
-/

namespace PgObjects

/-- `ObjectState` from `pg_objects/objects/base.py` — the four classification
values (distinct strings in the source). -/
inductive ObjectState where
  | IS_PRESENT
  | IS_ABSENT
  | IS_DIFFERENT
  | IS_UNKNOWN
deriving DecidableEq

namespace ObjectState

/-- `ObjectState.is_absent` property. -/
def is_absent : ObjectState → Bool
  | IS_ABSENT => true
  | _ => false

/-- `ObjectState.is_present` property. -/
def is_present : ObjectState → Bool
  | IS_PRESENT => true
  | _ => false

/-- `ObjectState.is_different` property. -/
def is_different : ObjectState → Bool
  | IS_DIFFERENT => true
  | _ => false

/-- `ObjectState.is_unknown` property. -/
def is_unknown : ObjectState → Bool
  | IS_UNKNOWN => true
  | _ => false

end ObjectState

/-- The GRANT/REVOKE clause built by
`SchemaTablesPrivilege.get_default_privilege_clause` (objects/schema.py):
`{GRANT|REVOKE} {privs} ON TABLES {TO|FROM} {grantee}`. -/
structure DefClause where
  present : Bool
  privileges : Finset String
  grantee : String
deriving DecidableEq

/-- Structural embedding of the SQL query texts built by the source's
f-strings; each constructor carries exactly the values interpolated by the
corresponding f-string.  `revokeOnSchema` is emitted by no generator of the
source; it exists so that the spec's claimed `REVOKE <privs> ON SCHEMA` shape
is expressible. -/
inductive Query where
  | revokeAllOnDatabase (database grantee : String)
  | grantOnDatabase (privileges : Finset String) (database grantee : String)
  | revokeOnDatabase (privileges : Finset String) (database grantee : String)
  | revokeAllOnSchema (schema grantee : String)
  | grantOnSchema (privileges : Finset String) (schema grantee : String)
  | revokeOnSchema (privileges : Finset String) (schema grantee : String)
  | revokeAllOnAllTables (schema grantee : String)
  | grantOnAllTables (privileges : Finset String) (schema grantee : String)
  | revokeOnAllTables (privileges : Finset String) (schema grantee : String)
  | reassignOwned (role : String) (target : Option String)
  | revokeAllOnSchemaPublicFrom (role : String)
  | alterUser (name : String) (flags : List String) (password : Option String)
  | revokePublicOnDatabase (database : String)
  | alterDatabaseOwner (database owner : String)
  | alterSchemaOwner (schema owner : String)
  | alterGroupAddUser (group user : String)
  | alterGroupDropUser (group user : String)
  | alterDefaultPrivileges (grantor schema : String) (clause : DefClause)
deriving DecidableEq

/-- Sentinel from `pg_objects/statements.py`: `Statement.ALL_DATABASES`. -/
def ALL_DATABASES : String := "ALL_DATABASES"

/-- The statement variants of `pg_objects/statements.py`.  `database` is the
routing tag (`None` = master connection).  `create`/`drop` carry the object's
class name (upper-cased, as in the `query` property) and name. -/
inductive Stmt where
  | text (query : Query) (database : Option String)
  | create (kind name : String) (database : Option String)
  | drop (kind name : String) (database : Option String)
  | transaction (statements : List Stmt) (database : Option String)

mutual

/-- Decidable equality for `Stmt` (manual because of the nested `List Stmt`). -/
def Stmt.decEq : (a b : Stmt) → Decidable (a = b)
  | .text q d, .text q' d' =>
      if h1 : q = q' then
        if h2 : d = d' then isTrue (by rw [h1, h2])
        else isFalse (fun he => by cases he; exact h2 rfl)
      else isFalse (fun he => by cases he; exact h1 rfl)
  | .create k n d, .create k' n' d' =>
      if h1 : k = k' then
        if h2 : n = n' then
          if h3 : d = d' then isTrue (by rw [h1, h2, h3])
          else isFalse (fun he => by cases he; exact h3 rfl)
        else isFalse (fun he => by cases he; exact h2 rfl)
      else isFalse (fun he => by cases he; exact h1 rfl)
  | .drop k n d, .drop k' n' d' =>
      if h1 : k = k' then
        if h2 : n = n' then
          if h3 : d = d' then isTrue (by rw [h1, h2, h3])
          else isFalse (fun he => by cases he; exact h3 rfl)
        else isFalse (fun he => by cases he; exact h2 rfl)
      else isFalse (fun he => by cases he; exact h1 rfl)
  | .transaction s d, .transaction s' d' =>
      match Stmt.decEqList s s' with
      | isTrue h1 =>
          if h2 : d = d' then isTrue (by rw [h1, h2])
          else isFalse (fun he => by cases he; exact h2 rfl)
      | isFalse h1 => isFalse (fun he => by cases he; exact h1 rfl)
  | .text _ _, .create _ _ _ => isFalse (fun h => Stmt.noConfusion h)
  | .text _ _, .drop _ _ _ => isFalse (fun h => Stmt.noConfusion h)
  | .text _ _, .transaction _ _ => isFalse (fun h => Stmt.noConfusion h)
  | .create _ _ _, .text _ _ => isFalse (fun h => Stmt.noConfusion h)
  | .create _ _ _, .drop _ _ _ => isFalse (fun h => Stmt.noConfusion h)
  | .create _ _ _, .transaction _ _ => isFalse (fun h => Stmt.noConfusion h)
  | .drop _ _ _, .text _ _ => isFalse (fun h => Stmt.noConfusion h)
  | .drop _ _ _, .create _ _ _ => isFalse (fun h => Stmt.noConfusion h)
  | .drop _ _ _, .transaction _ _ => isFalse (fun h => Stmt.noConfusion h)
  | .transaction _ _, .text _ _ => isFalse (fun h => Stmt.noConfusion h)
  | .transaction _ _, .create _ _ _ => isFalse (fun h => Stmt.noConfusion h)
  | .transaction _ _, .drop _ _ _ => isFalse (fun h => Stmt.noConfusion h)

/-- Decidable equality for lists of `Stmt`. -/
def Stmt.decEqList : (a b : List Stmt) → Decidable (a = b)
  | [], [] => isTrue rfl
  | [], _ :: _ => isFalse (fun h => List.noConfusion h)
  | _ :: _, [] => isFalse (fun h => List.noConfusion h)
  | x :: xs, y :: ys =>
      match Stmt.decEq x y, Stmt.decEqList xs ys with
      | isTrue h1, isTrue h2 => isTrue (by rw [h1, h2])
      | isFalse h1, _ => isFalse (fun he => by cases he; exact h1 rfl)
      | _, isFalse h2 => isFalse (fun he => by cases he; exact h2 rfl)

end

instance : DecidableEq Stmt := Stmt.decEq

/-- The full privilege set `DatabasePrivilege.ALL`. -/
def DatabasePrivilege.ALL : Finset String := {"CONNECT", "CREATE", "TEMPORARY"}

/-- The full privilege set `SchemaPrivilege.ALL`. -/
def SchemaPrivilege.ALL : Finset String := {"CREATE", "USAGE"}

/-- The full privilege set `SchemaTablesPrivilege.ALL`. -/
def SchemaTablesPrivilege.ALL : Finset String :=
  {"SELECT", "INSERT", "UPDATE", "DELETE", "TRUNCATE", "REFERENCES", "TRIGGER"}

/-- The object model (`pg_objects/objects/…`), one constructor per concrete
class.  `defaultPrivilege` flattens the `DefaultPrivilege` object together
with its target privilege (in the source always a `SchemaTablesPrivilege`):
`privDatabase`/`privSchema`/`privGrantee`/`privPrivileges`/`privPresent` are
the target's fields. -/
inductive Obj where
  | group (name : String) (present : Bool)
  | user (name : String) (password : Option String) (groups : List String)
      (inherit : Bool) (present : Bool)
  | groupUser (group user : String) (present : Bool)
  | database (name : String) (owner : Option String) (present : Bool)
  | databaseOwner (database owner : String) (present : Bool)
  | schema (database name : String) (owner : Option String) (present : Bool)
  | schemaOwner (database schema owner : String) (present : Bool)
  | databasePrivilege (database grantee : String) (privileges : Finset String)
      (present : Bool)
  | schemaPrivilege (database schema grantee : String) (privileges : Finset String)
      (present : Bool)
  | schemaTablesPrivilege (database schema grantee : String)
      (privileges : Finset String) (present : Bool)
  | defaultPrivilege (privDatabase privSchema privGrantee : String)
      (privPrivileges : Finset String) (privPresent : Bool)
      (grantor : String) (present : Bool)
deriving DecidableEq

namespace Obj

/-- The desired `present` flag of an object. -/
def present : Obj → Bool
  | group _ p => p
  | user _ _ _ _ p => p
  | groupUser _ _ p => p
  | database _ _ p => p
  | databaseOwner _ _ p => p
  | schema _ _ _ p => p
  | schemaOwner _ _ _ p => p
  | databasePrivilege _ _ _ p => p
  | schemaPrivilege _ _ _ _ p => p
  | schemaTablesPrivilege _ _ _ _ p => p
  | defaultPrivilege _ _ _ _ _ _ p => p

/-- Helper for sorted comma-joined privilege keys. -/
def joinSorted (s : Finset String) : String :=
  String.intercalate "," (s.sort (· ≤ ·))

/-- The `key` property of each object class (identity string). -/
def key : Obj → String
  | group n _ => s!"Group({n})"
  | user n _ _ _ _ => s!"User({n})"
  | groupUser g u _ => s!"GroupUser({g}+{u})"
  | database n _ _ => s!"Database({n})"
  | databaseOwner d o _ => s!"DatabaseOwner({d}+{o})"
  | schema d n _ _ => s!"Schema({d}.{n})"
  | schemaOwner d s o _ => s!"SchemaOwner({d}.{s}+{o})"
  | databasePrivilege d g privs _ => s!"DatabasePrivilege({g}@{d}:{joinSorted privs})"
  | schemaPrivilege d s g privs _ =>
      s!"SchemaPrivilege({g}@{d}.{s}:{joinSorted privs})"
  | schemaTablesPrivilege d s g privs _ =>
      s!"SchemaTablesPrivilege({g}@{d}.{s}:{joinSorted privs})"
  | defaultPrivilege pd ps pg pprivs _ grantor _ =>
      s!"DefaultPrivilege({grantor}:SchemaTablesPrivilege({pg}@{pd}.{ps}:{joinSorted pprivs}))"

end Obj

/-- Per-run context the generators read from the `Setup` back-reference:
`master_user` and `master_database` (both `None` when there is no master
connection), and the md5 hex-digest function (external `hashlib`). -/
structure Ctx where
  masterUser : Option String
  masterDatabase : Option String
  md5hex : String → String

/-- Python `str.lower()`, modelled character-wise on the string's character
list (the built-in `String.toLower` does not reduce in the kernel). -/
def strToLower (s : String) : String := ⟨s.data.map Char.toLower⟩

/-- Python `str.startswith(pre)`, modelled on the character lists. -/
def strStartsWith (s pre : String) : Bool := pre.data.isPrefixOf s.data

/-- `pg_objects/utils.py::get_password_md5`:
`"md5" + md5(f"{password}{username}").hexdigest()`. -/
def get_password_md5 (md5hex : String → String) (username password : String) : String :=
  "md5" ++ md5hex (password ++ username)

/-- `User.get_password_sql` (objects/role.py): `None` stands for the bare
`LOGIN` clause, `some h` for `LOGIN PASSWORD '<h>'`.  An unset or empty
password (both falsy in Python) keeps the bare clause. -/
def get_password_sql (ctx : Ctx) (name : String) (password : Option String) :
    Option String :=
  match password with
  | none => none
  | some p =>
      if p = "" then none
      else if strStartsWith p "md5" then some p
      else some (get_password_md5 ctx.md5hex name p)

/-- `Role._is_managed` (objects/role.py). -/
def isManagedRole (ctx : Ctx) (name : String) : Bool :=
  if strToLower name = "public" ∨ strToLower name = "postgres" then false
  else if strStartsWith (strToLower name) "pg_" then false
  else if ctx.masterUser = some name then false
  else true

namespace Obj

/-- The four statements of `Role.stmts_to_drop` for a managed role with class
name `kind` (`"GROUP"` or `"USER"`). -/
def roleDropStmts (ctx : Ctx) (kind name : String) : List Stmt :=
  [ Stmt.text (Query.reassignOwned name ctx.masterUser) (some ALL_DATABASES),
    Stmt.text (Query.revokeAllOnSchemaPublicFrom name) (some ALL_DATABASES),
    Stmt.text (Query.revokeAllOnSchemaPublicFrom name) ctx.masterDatabase,
    Stmt.drop kind name none ]

/-- The `ALTER DEFAULT PRIVILEGES … REVOKE ALL` statement
(`DefaultPrivilege._get_revoke_all_stmt`).  The source raises `ValueError`
when the target privilege has no schema ("Global default privileges not
supported yet"); that raising path yields no statement here and is outside
every claim below. -/
def defaultPrivRevokeAll (grantor pd ps pg : String) : List Stmt :=
  if ps = "" then []
  else
    [ Stmt.text
        (Query.alterDefaultPrivileges grantor
          ps ⟨false, SchemaTablesPrivilege.ALL, pg⟩) (some pd) ]

/-- `stmts_to_create` of each object class. -/
def stmtsToCreate (ctx : Ctx) : Obj → List Stmt
  | group n _ => if isManagedRole ctx n then [Stmt.create "GROUP" n none] else []
  | user n _ _ _ _ => if isManagedRole ctx n then [Stmt.create "USER" n none] else []
  | groupUser g u _ => [Stmt.text (Query.alterGroupAddUser g u) none]
  | database n _ _ => [Stmt.create "DATABASE" n none]
  | databaseOwner d o _ => [Stmt.text (Query.alterDatabaseOwner d o) none]
  | schema d n _ _ => [Stmt.create "SCHEMA" n (some d)]
  | schemaOwner d s o _ => [Stmt.text (Query.alterSchemaOwner s o) (some d)]
  | databasePrivilege d g privs _ =>
      [ Stmt.transaction
          ((if privs ≠ DatabasePrivilege.ALL
            then [Stmt.text (Query.revokeAllOnDatabase d g) none] else [])
            ++ [Stmt.text (Query.grantOnDatabase privs d g) none]) none ]
  | schemaPrivilege d s g privs _ =>
      [ Stmt.transaction
          ((if privs ≠ SchemaPrivilege.ALL
            then [Stmt.text (Query.revokeAllOnSchema s g) (some d)] else [])
            ++ [Stmt.text (Query.grantOnSchema privs s g) (some d)]) (some d) ]
  | schemaTablesPrivilege d s g privs _ =>
      [ Stmt.transaction
          ((if privs ≠ SchemaTablesPrivilege.ALL
            then [Stmt.text (Query.revokeAllOnAllTables s g) (some d)] else [])
            ++ [Stmt.text (Query.grantOnAllTables privs s g) (some d)]) (some d) ]
  | defaultPrivilege _ _ _ _ _ _ _ => []

/-- `stmts_to_update` — the base-class default forwards to `stmts_to_create`;
no class overrides it. -/
def stmtsToUpdate (ctx : Ctx) (o : Obj) : List Stmt :=
  o.stmtsToCreate ctx

/-- `stmts_to_drop` of each object class. -/
def stmtsToDrop (ctx : Ctx) : Obj → List Stmt
  | group n _ => if isManagedRole ctx n then roleDropStmts ctx "GROUP" n else []
  | user n _ _ _ _ => if isManagedRole ctx n then roleDropStmts ctx "USER" n else []
  | groupUser g u _ => [Stmt.text (Query.alterGroupDropUser g u) none]
  | database n _ _ => [Stmt.drop "DATABASE" n none]
  | databaseOwner _ _ _ => []
  | schema d n _ _ => [Stmt.drop "SCHEMA" n (some d)]
  | schemaOwner _ _ _ _ => []
  | databasePrivilege d g privs _ => [Stmt.text (Query.revokeOnDatabase privs d g) none]
  | schemaPrivilege d s g _ _ => [Stmt.text (Query.revokeAllOnSchema s g) (some d)]
  | schemaTablesPrivilege d s g privs _ =>
      [Stmt.text (Query.revokeOnAllTables privs s g) (some d)]
  | defaultPrivilege pd ps pg _ _ grantor _ => defaultPrivRevokeAll grantor pd ps pg

/-- `stmts_to_maintain` of each object class.  Only `User`, `Database` and
`DefaultPrivilege` override the empty base generator. -/
def stmtsToMaintain (ctx : Ctx) : Obj → List Stmt
  | user n pw _ inh _ =>
      [ Stmt.text
          (Query.alterUser n
            ["NOCREATEDB", if inh then "INHERIT" else "NOINHERIT"]
            (get_password_sql ctx n pw)) none ]
  | database n _ _ => [Stmt.text (Query.revokePublicOnDatabase n) none]
  | defaultPrivilege pd ps pg pprivs pPresent grantor _ =>
      if ps = "" then []
      else
        [ Stmt.transaction
            [ Stmt.text
                (Query.alterDefaultPrivileges grantor ps
                  ⟨false, SchemaTablesPrivilege.ALL, pg⟩) (some pd),
              Stmt.text
                (Query.alterDefaultPrivileges grantor ps
                  ⟨pPresent, pprivs, pg⟩) (some pd) ] (some pd) ]
  | _ => []

end Obj

/-- Association-list lookup (model of Python `dict` indexing / `in` tests:
a key is "in the dict" iff `lookup` is `some`). -/
def lookup {β : Type} : List (String × β) → String → Option β
  | [], _ => none
  | (k, v) :: rest, key => if k = key then some v else lookup rest key

/-- The observed-state snapshot held by `ServerState` (`pg_objects/setup.py`)
together with the maps provided by the state-provider mixins it inherits
through `State` (`pg_objects/state.py`).  Nested `dict`s become nested
association lists; `defaultdict` misses are handled at each use site the way
the source's getters do. -/
structure ServerState where
  /-- `databases`: name ↦ owner. -/
  databases : List (String × String)
  /-- `schemas[db][name]` ↦ owner. -/
  schemas : List (String × List (String × String))
  /-- `schema_privileges[db][schema][grantee]` ↦ set of privileges. -/
  schemaPrivileges : List (String × List (String × List (String × Finset String)))
  /-- `schema_tables[db][schema]` ↦ table names. -/
  schemaTables : List (String × List (String × List String))
  /-- `schema_tables_privileges[db][schema][grantee][table]` ↦ privileges. -/
  schemaTablesPrivileges :
    List (String × List (String × List (String × List (String × Finset String))))
  /-- `database_privileges[db][grantee]` ↦ privileges
  (`DatabasePrivilegeStateProvider`). -/
  databasePrivileges : List (String × List (String × Finset String))
  /-- `groups`: group names. -/
  groups : List String
  /-- `users`: user names. -/
  users : List String
  /-- `group_users[group]` ↦ users (defaultdict of lists). -/
  groupUsers : List (String × List String)

namespace ServerState

/-- `ServerState.get_databaseowner` (setup.py): mismatching owner is reported
`IS_ABSENT`, not `IS_DIFFERENT` (the source's TODO comment). -/
def get_databaseowner (st : ServerState) (database owner : String) : ObjectState :=
  match lookup st.databases database with
  | none => .IS_ABSENT
  | some currentOwner =>
      if currentOwner = owner then .IS_PRESENT else .IS_ABSENT

/-- `ServerState.get_schemaowner` (setup.py): same downgrade of a mismatch to
`IS_ABSENT`. -/
def get_schemaowner (st : ServerState) (database schema owner : String) : ObjectState :=
  match lookup st.schemas database with
  | none => .IS_ABSENT
  | some schemasOfDb =>
      match lookup schemasOfDb schema with
      | none => .IS_ABSENT
      | some currentOwner =>
          if owner = currentOwner then .IS_PRESENT else .IS_ABSENT

/-- `DatabasePrivilegeStateProvider._get_database_privileges`
(objects/database.py): empty set when either level is missing. -/
def getDatabasePrivileges (st : ServerState) (database grantee : String) :
    Finset String :=
  match lookup st.databasePrivileges database with
  | none => ∅
  | some byGrantee =>
      match lookup byGrantee grantee with
      | none => ∅
      | some privs => privs

/-- `DatabasePrivilegeStateProvider.get_databaseprivilege`
(objects/database.py, lines 186–190). -/
def get_databaseprivilege (st : ServerState) (database grantee : String)
    (privileges : Finset String) : ObjectState :=
  let current := st.getDatabasePrivileges database grantee
  if current = ∅ then .IS_ABSENT
  else if privileges = current then .IS_PRESENT
  else .IS_DIFFERENT

/-- `ServerState.get_schemaprivilege` (setup.py). -/
def get_schemaprivilege (st : ServerState) (database schema grantee : String)
    (privileges : Finset String) : ObjectState :=
  match lookup st.schemaPrivileges database with
  | none => .IS_ABSENT
  | some bySchema =>
      match lookup bySchema schema with
      | none => .IS_ABSENT
      | some byGrantee =>
          match lookup byGrantee grantee with
          | none => .IS_ABSENT
          | some current =>
              if privileges = current then .IS_PRESENT else .IS_DIFFERENT

/-- Tables of a schema, `self.schema_tables[db][schema]` (defaultdict: missing
levels give the empty dict). -/
def tablesOf (st : ServerState) (database schema : String) : List String :=
  match lookup st.schemaTables database with
  | none => []
  | some bySchema =>
      match lookup bySchema schema with
      | none => []
      | some tables => tables

/-- `ServerState.get_schematablesprivilege` (setup.py): `IS_PRESENT` iff the
grantee appears and holds exactly the configured set on every observed table
of the schema (defaultdict miss on a table gives the empty set). -/
def get_schematablesprivilege (st : ServerState) (database schema grantee : String)
    (privileges : Finset String) : ObjectState :=
  match lookup st.schemaTablesPrivileges database with
  | none => .IS_ABSENT
  | some bySchema =>
      match lookup bySchema schema with
      | none => .IS_ABSENT
      | some byGrantee =>
          match lookup byGrantee grantee with
          | none => .IS_ABSENT
          | some byTable =>
              if (st.tablesOf database schema).all
                  (fun t => (lookup byTable t).getD ∅ = privileges)
              then .IS_PRESENT else .IS_DIFFERENT

/-- `State.get_defaultprivilege` (state.py / setup.py): absence of the grantor
role or of the target schema means surely absent, anything else is
`IS_UNKNOWN` (actual default privileges are not loaded). -/
def get_defaultprivilege (st : ServerState) (grantor privDatabase privSchema : String) :
    ObjectState :=
  if grantor ∉ st.groups ∧ grantor ∉ st.users then .IS_ABSENT
  else
    match lookup st.schemas privDatabase with
    | none => .IS_ABSENT
    | some schemasOfDb =>
        if (lookup schemasOfDb privSchema).isNone then .IS_ABSENT
        else .IS_UNKNOWN

/-- `ServerState.get` — dispatch by object class, exactly the getters the
engine's `ServerState` exposes (its own methods plus the inherited state
providers). -/
def get (st : ServerState) : Obj → ObjectState
  | .group n _ => if n ∈ st.groups then .IS_PRESENT else .IS_ABSENT
  | .user n _ _ _ _ => if n ∈ st.users then .IS_PRESENT else .IS_ABSENT
  | .groupUser g u _ =>
      if u ∈ (lookup st.groupUsers g).getD [] then .IS_PRESENT else .IS_ABSENT
  | .database n _ _ =>
      if (lookup st.databases n).isSome then .IS_PRESENT else .IS_ABSENT
  | .databaseOwner d o _ => st.get_databaseowner d o
  | .schema d n _ _ =>
      match lookup st.schemas d with
      | none => .IS_ABSENT
      | some schemasOfDb =>
          if (lookup schemasOfDb n).isSome then .IS_PRESENT else .IS_ABSENT
  | .schemaOwner d s o _ => st.get_schemaowner d s o
  | .databasePrivilege d g privs _ => st.get_databaseprivilege d g privs
  | .schemaPrivilege d s g privs _ => st.get_schemaprivilege d s g privs
  | .schemaTablesPrivilege d s g privs _ => st.get_schematablesprivilege d s g privs
  | .defaultPrivilege pd ps _ _ _ grantor _ => st.get_defaultprivilege grantor pd ps

end ServerState

/-! ## The three-pass statement generator (`Setup._generate_stmts`) -/

/-- One object's contribution to the create/update pass: the `if/elif` chain
of `Setup._generate_stmts` (setup.py lines 431–442). -/
def createPassObj (ctx : Ctx) (st : Obj → ObjectState) (o : Obj) : List Stmt :=
  if (st o).is_absent && o.present then o.stmtsToCreate ctx
  else if (st o).is_unknown && o.present then o.stmtsToCreate ctx
  else if (st o).is_different && o.present then o.stmtsToUpdate ctx
  else []

/-- One object's contribution to the maintain pass (setup.py lines 445–447). -/
def maintainPassObj (ctx : Ctx) (o : Obj) : List Stmt :=
  if o.present then o.stmtsToMaintain ctx else []

/-- One object's contribution to the drop pass (setup.py lines 450–458). -/
def dropPassObj (ctx : Ctx) (st : Obj → ObjectState) (o : Obj) : List Stmt :=
  if (st o).is_present && !o.present then o.stmtsToDrop ctx
  else if (st o).is_unknown && !o.present then o.stmtsToDrop ctx
  else []

/-- `Setup._generate_stmts`: create/update pass over the topologically
ordered objects, then the maintain pass, then the drop pass over the reversed
order. -/
def generateStmts (ctx : Ctx) (objects : List Obj) (st : Obj → ObjectState) :
    List Stmt :=
  objects.flatMap (createPassObj ctx st)
    ++ objects.flatMap (maintainPassObj ctx)
    ++ objects.reverse.flatMap (dropPassObj ctx st)

/-- C1: the generated statement sequence is exactly three passes — a forward
create/update pass (create on `IS_ABSENT`/`IS_UNKNOWN`, update on
`IS_DIFFERENT`, only for desired-present objects), a forward unconditional
maintain pass over desired-present objects, and a reverse drop pass (drop on
`IS_PRESENT`/`IS_UNKNOWN`, only for desired-absent objects); no other
statements are emitted. -/
theorem generate_stmts_three_passes (ctx : Ctx) (objects : List Obj)
    (st : Obj → ObjectState) :
    generateStmts ctx objects st =
      objects.flatMap
        (fun o =>
          if o.present then
            match st o with
            | .IS_ABSENT => o.stmtsToCreate ctx
            | .IS_UNKNOWN => o.stmtsToCreate ctx
            | .IS_DIFFERENT => o.stmtsToUpdate ctx
            | .IS_PRESENT => []
          else [])
      ++ objects.flatMap (fun o => if o.present then o.stmtsToMaintain ctx else [])
      ++ objects.reverse.flatMap
        (fun o =>
          if o.present then []
          else
            match st o with
            | .IS_PRESENT => o.stmtsToDrop ctx
            | .IS_UNKNOWN => o.stmtsToDrop ctx
            | _ => []) := by
  unfold generateStmts
  congr 1
  · congr 1
    · apply List.flatMap_congr
      intro o _
      cases h : st o <;> cases hp : o.present <;>
        simp [createPassObj, ObjectState.is_absent, ObjectState.is_unknown,
          ObjectState.is_different, h, hp]
  · apply List.flatMap_congr
    intro o _
    cases h : st o <;> cases hp : o.present <;>
      simp [dropPassObj, ObjectState.is_present, ObjectState.is_unknown, h, hp]

/-! ## The dependency graph and Kahn's topological sort (`pg_objects/graph.py`)

A `Graph` is a vertex list plus an edge list; an edge `(u, v)` records that
`u` depends on `v` (`u.add_dependency(v)` = `add_edge(u, v)` in the source).
`Vertex.dependencies` is the forward adjacency, `Vertex.dependants` the
reverse one.  Python pops an arbitrary element from the start `set`; the
embedding takes the popped index from an arbitrary `choose` function and the
theorems hold for every such function. -/

structure Graph (V : Type) where
  vertices : List V
  edges : List (V × V)

namespace Graph

variable {V : Type} [DecidableEq V]

/-- `vertex.dependencies` — targets of the edges leaving `u`. -/
def deps (E : List (V × V)) (u : V) : List V :=
  (E.filter (fun e => decide (e.1 = u))).map (·.2)

/-- `vertex.dependants` — sources of the edges entering `n`. -/
def dependants (E : List (V × V)) (n : V) : List V :=
  (E.filter (fun e => decide (e.2 = n))).map (·.1)

/-- The `while S` loop of `topological_sort_by_kahn`: pop a vertex `n` of the
start list `S` (at the index supplied by `choose`), append it to the output
`L`, delete every edge pointing at `n`, and enqueue the dependants of `n`
that became dependency-free. -/
def kahnLoop (choose : List V → Nat) :
    Nat → List (V × V) → List V → List V → List V × List (V × V)
  | 0, E, L, _ => (L, E)
  | fuel + 1, E, L, S =>
    match S with
    | [] => (L, E)
    | s :: ss =>
        let Sfull := s :: ss
        let n := Sfull.getD (choose Sfull % Sfull.length) s
        let E' := E.filter (fun e => decide (e.2 ≠ n))
        let newRoots := (dependants E n).filter (fun m => decide (deps E' m = []))
        kahnLoop choose fuel E' (L ++ [n]) (Sfull.erase n ++ newRoots)

/-- Error message raised when the initial start set is empty. -/
def noRootError : String := "Graph has no vertex with no incoming edges"

/-- Error message raised when edges remain after the removal loop. -/
def cycleError : String := "Graph has at least one cycle"

/-- `Graph.topological_sort_by_kahn` (graph.py lines 92–114). -/
def topological_sort_by_kahn (choose : List V → Nat) (g : Graph V) :
    Except String (List V) :=
  let S₀ := g.vertices.filter (fun v => decide (deps g.edges v = []))
  if S₀.isEmpty then .error noRootError
  else
    let r := kahnLoop choose (g.vertices.length + 1) g.edges [] S₀
    if r.2 = [] then .ok r.1 else .error cycleError

/-- Well-formedness of the graph as built by the source: vertex and edge
sets (no duplicates), edges between existing vertices. -/
structure WF (g : Graph V) : Prop where
  vnodup : g.vertices.Nodup
  enodup : g.edges.Nodup
  srcMem : ∀ e ∈ g.edges, e.1 ∈ g.vertices
  tgtMem : ∀ e ∈ g.edges, e.2 ∈ g.vertices

/-- Acyclicity of a finite graph: every nonempty set of vertices contains a
vertex none of whose dependencies lies in the set.  (Quantifying over
`sublists` keeps the predicate decidable; `acyclic_of_ordered` and the
theorems below relate it to the existence of a topological order.) -/
def Acyclic (g : Graph V) : Prop :=
  ∀ s ∈ g.vertices.sublists, s ≠ [] → ∃ v ∈ s, ∀ w ∈ deps g.edges v, w ∉ s

instance (g : Graph V) : Decidable (Acyclic g) := by
  unfold Acyclic
  infer_instance

/-- The loop invariant of `kahnLoop`. -/
structure Inv (g : Graph V) (E : List (V × V)) (L S : List V) : Prop where
  Lsub : ∀ x ∈ L, x ∈ g.vertices
  Lnodup : L.Nodup
  Ssub : ∀ x ∈ S, x ∈ g.vertices
  Snodup : S.Nodup
  SdisjL : ∀ x ∈ S, x ∉ L
  Eeq : E = g.edges.filter (fun e => decide (e.2 ∉ L))
  Sspec : ∀ v ∈ g.vertices, v ∉ L → (deps E v = [] ↔ v ∈ S)
  Lorder : ∀ e ∈ g.edges, e.1 ∈ L →
    e.2 ∈ L ∧ L.indexOf e.2 < L.indexOf e.1

theorem mem_deps {E : List (V × V)} {u w : V} : w ∈ deps E u ↔ (u, w) ∈ E := by
  constructor
  · intro h
    obtain ⟨e, he, rfl⟩ := List.mem_map.mp h
    have := List.mem_filter.mp he
    have h1 : e.1 = u := by simpa using this.2
    simpa [← h1] using this.1
  · intro h
    exact List.mem_map.mpr ⟨(u, w), List.mem_filter.mpr ⟨h, by simp⟩, rfl⟩

theorem mem_dependants {E : List (V × V)} {n m : V} :
    m ∈ dependants E n ↔ (m, n) ∈ E := by
  constructor
  · intro h
    obtain ⟨e, he, rfl⟩ := List.mem_map.mp h
    have := List.mem_filter.mp he
    have h2 : e.2 = n := by simpa using this.2
    simpa [← h2] using this.1
  · intro h
    exact List.mem_map.mpr ⟨(m, n), List.mem_filter.mpr ⟨h, by simp⟩, rfl⟩

theorem deps_eq_nil_iff {E : List (V × V)} {u : V} :
    deps E u = [] ↔ ∀ w, (u, w) ∉ E := by
  rw [List.eq_nil_iff_forall_not_mem]
  exact forall_congr' fun w => not_congr mem_deps

theorem deps_subset_of_sublist {E E' : List (V × V)} (h : E' ⊆ E) {u : V} :
    deps E' u ⊆ deps E u := by
  intro w hw
  exact mem_deps.mpr (h (mem_deps.mp hw))

/-- The invariant holds before the first iteration. -/
theorem inv_init (g : Graph V) (wf : WF g) :
    Inv g g.edges []
      (g.vertices.filter (fun v => decide (deps g.edges v = []))) := by
  refine ⟨?_, ?_, ?_, ?_, ?_, ?_, ?_, ?_⟩
  · simp
  · simp
  · intro x hx; exact (List.mem_filter.mp hx).1
  · exact wf.vnodup.filter _
  · simp
  · symm
    rw [List.filter_eq_self]
    intro e _
    simp
  · intro v hv _
    simp [List.mem_filter, hv]
  · simp

/-- One iteration of the loop body preserves the invariant. -/
theorem inv_step (g : Graph V) (wf : WF g) {E : List (V × V)} {L S : List V}
    (inv : Inv g E L S) {n : V} (hnS : n ∈ S) :
    Inv g (E.filter (fun e => decide (e.2 ≠ n))) (L ++ [n])
      (S.erase n ++
        (dependants E n).filter
          (fun m => decide (deps (E.filter (fun e => decide (e.2 ≠ n))) m = []))) := by
  have hnV : n ∈ g.vertices := inv.Ssub n hnS
  have hnL : n ∉ L := inv.SdisjL n hnS
  have hdepn : deps E n = [] := (inv.Sspec n hnV hnL).mpr hnS
  have hEsub : E ⊆ g.edges := by
    rw [inv.Eeq]; exact fun x hx => (List.mem_filter.mp hx).1
  have hEnodup : E.Nodup := by
    rw [inv.Eeq]; exact wf.enodup.filter _
  set E' := E.filter (fun e => decide (e.2 ≠ n)) with hE'
  set newRoots :=
    (dependants E n).filter (fun m => decide (deps E' m = [])) with hNR
  have hE'subE : E' ⊆ E := fun x hx => (List.mem_filter.mp hx).1
  have memNR : ∀ m, m ∈ newRoots ↔ (m, n) ∈ E ∧ deps E' m = [] := by
    intro m
    rw [hNR, List.mem_filter, mem_dependants]
    simp
  have hNRnotL : ∀ m ∈ newRoots, m ∉ L := by
    intro m hm hmL
    have hmn : (m, n) ∈ g.edges := hEsub ((memNR m).mp hm).1
    exact hnL (inv.Lorder (m, n) hmn hmL).1
  have hNRV : ∀ m ∈ newRoots, m ∈ g.vertices := by
    intro m hm
    exact wf.srcMem (m, n) (hEsub ((memNR m).mp hm).1)
  have hNRne : ∀ m ∈ newRoots, m ≠ n := by
    intro m hm heq
    subst heq
    have : m ∈ deps E m := mem_deps.mpr ((memNR m).mp hm).1
    simp [hdepn] at this
  have hNRnotS : ∀ m ∈ newRoots, m ∉ S := by
    intro m hm hmS
    have h0 : deps E m = [] :=
      (inv.Sspec m (hNRV m hm) (fun hmL => hNRnotL m hm hmL)).mpr hmS
    have : n ∈ deps E m := mem_deps.mpr ((memNR m).mp hm).1
    simp [h0] at this
  refine ⟨?_, ?_, ?_, ?_, ?_, ?_, ?_, ?_⟩
  · intro x hx
    rcases List.mem_append.mp hx with hx | hx
    · exact inv.Lsub x hx
    · simp at hx; subst hx; exact hnV
  · simp [List.nodup_append, inv.Lnodup, hnL]
  · intro x hx
    rcases List.mem_append.mp hx with hx | hx
    · exact inv.Ssub x (List.mem_of_mem_erase hx)
    · exact hNRV x hx
  · rw [List.nodup_append]
    refine ⟨inv.Snodup.erase n, ?_, ?_⟩
    · apply List.Nodup.filter
      apply List.Nodup.map_on
      · intro x hx y hy hxy
        have hx2 : x.2 = n := by simpa using (List.mem_filter.mp hx).2
        have hy2 : y.2 = n := by simpa using (List.mem_filter.mp hy).2
        exact Prod.ext hxy (hx2.trans hy2.symm)
      · exact hEnodup.filter _
    · intro x hx hx'
      exact hNRnotS x hx' (List.mem_of_mem_erase hx)
  · intro x hx hx'
    rcases List.mem_append.mp hx with hx | hx
    · obtain ⟨hne, hxS⟩ := (inv.Snodup.mem_erase_iff).mp hx
      rcases List.mem_append.mp hx' with h | h
      · exact inv.SdisjL x hxS h
      · simp at h; exact hne h
    · rcases List.mem_append.mp hx' with h | h
      · exact hNRnotL x hx h
      · simp at h; exact hNRne x hx h
  · rw [hE', inv.Eeq, List.filter_filter]
    apply List.filter_congr
    intro e _
    simp [List.mem_append, not_or, and_comm]
  · intro v hv hv'
    have hvL : v ∉ L := fun h => hv' (List.mem_append.mpr (.inl h))
    have hvn : v ≠ n := fun h => hv' (by simp [h])
    constructor
    · intro hdep
      by_cases hvS : v ∈ S
      · exact List.mem_append.mpr (.inl ((inv.Snodup.mem_erase_iff).mpr ⟨hvn, hvS⟩))
      · have hne : deps E v ≠ [] := fun h0 => hvS ((inv.Sspec v hv hvL).mp h0)
        obtain ⟨w, hw⟩ := List.exists_mem_of_ne_nil _ hne
        have hvw : (v, w) ∈ E := mem_deps.mp hw
        have hwn : w = n := by
          by_contra hne'
          have : (v, w) ∈ E' := List.mem_filter.mpr ⟨hvw, by simpa using hne'⟩
          have : w ∈ deps E' v := mem_deps.mpr this
          simp [hdep] at this
        subst hwn
        exact List.mem_append.mpr (.inr ((memNR v).mpr ⟨hvw, hdep⟩))
    · intro hv''
      rcases List.mem_append.mp hv'' with h | h
      · have hvS : v ∈ S := List.mem_of_mem_erase h
        have h0 : deps E v = [] := (inv.Sspec v hv hvL).mpr hvS
        have : deps E' v ⊆ deps E v := deps_subset_of_sublist hE'subE
        rw [h0] at this
        exact List.eq_nil_iff_forall_not_mem.mpr fun a ha => by simpa using this ha
      · exact ((memNR v).mp h).2
  · intro e he he1
    rcases List.mem_append.mp he1 with h1 | h1
    · obtain ⟨h2, hidx⟩ := inv.Lorder e he h1
      refine ⟨List.mem_append.mpr (.inl h2), ?_⟩
      rw [List.indexOf_append_of_mem h2, List.indexOf_append_of_mem h1]
      exact hidx
    · simp only [List.mem_singleton] at h1
      have h2 : e.2 ∈ L := by
        by_contra h2
        have heE : e ∈ E := by
          rw [inv.Eeq]
          exact List.mem_filter.mpr ⟨he, by simpa using h2⟩
        have : e.2 ∈ deps E n := by
          rw [← h1]
          exact mem_deps.mpr (by rwa [Prod.mk.eta])
        simp [hdepn] at this
      refine ⟨List.mem_append.mpr (.inl h2), ?_⟩
      rw [List.indexOf_append_of_mem h2, h1, List.indexOf_append_of_not_mem hnL]
      have := List.indexOf_lt_length.mpr h2
      simp only [List.indexOf_cons_self]
      omega

/-- A list of distinct vertices is no longer than the vertex list. -/
theorem nodup_subset_length_le {α : Type} {L M : List α}
    (h1 : L.Nodup) (h2 : ∀ x ∈ L, x ∈ M) :
    L.length ≤ M.length :=
  (List.subperm_of_subset h1 h2).length_le

/-- Given enough fuel the loop terminates with an empty start list and the
invariant intact. -/
theorem kahnLoop_inv (choose : List V → Nat) (g : Graph V) (wf : WF g) :
    ∀ (fuel : Nat) (E : List (V × V)) (L S : List V), Inv g E L S →
      g.vertices.length - L.length < fuel →
      Inv g (kahnLoop choose fuel E L S).2 (kahnLoop choose fuel E L S).1 [] := by
  intro fuel
  induction fuel with
  | zero => intro E L S _ hf; omega
  | succ fuel ih =>
    intro E L S inv hf
    match S with
    | [] => exact inv
    | s :: ss =>
      rw [kahnLoop]
      set Sfull : List V := s :: ss with hSfull
      have hlen : choose Sfull % Sfull.length < Sfull.length :=
        Nat.mod_lt _ (by simp [hSfull])
      have hnS : Sfull.getD (choose Sfull % Sfull.length) s ∈ Sfull := by
        rw [List.getD_eq_getElem _ _ hlen]
        exact List.getElem_mem _
      have inv' := inv_step g wf inv hnS
      have hlenL : (L ++ [Sfull.getD (choose Sfull % Sfull.length) s]).length
          ≤ g.vertices.length :=
        nodup_subset_length_le inv'.Lnodup inv'.Lsub
      have hfuel' : g.vertices.length
          - (L ++ [Sfull.getD (choose Sfull % Sfull.length) s]).length < fuel := by
        simp only [List.length_append, List.length_singleton] at hlenL ⊢
        omega
      exact ih _ _ _ inv' hfuel'

/-- When the loop has drained `S` on an acyclic graph, every vertex has been
output. -/
theorem final_all_mem (g : Graph V) (wf : WF g) {E : List (V × V)} {L : List V}
    (inv : Inv g E L []) (hacyc : Acyclic g) :
    ∀ v ∈ g.vertices, v ∈ L := by
  by_contra hcon
  push_neg at hcon
  set R : List V := g.vertices.filter (fun v => decide (v ∉ L)) with hR
  have hRne : R ≠ [] := by
    obtain ⟨v, hv, hvL⟩ := hcon
    intro h0
    have : v ∈ R := List.mem_filter.mpr ⟨hv, by simpa using hvL⟩
    simp [h0] at this
  have hRsub : R ∈ g.vertices.sublists :=
    List.mem_sublists.mpr (List.filter_sublist _)
  obtain ⟨v, hvR, hvdeps⟩ := hacyc R hRsub hRne
  have hvV : v ∈ g.vertices := (List.mem_filter.mp hvR).1
  have hvL : v ∉ L := by simpa using (List.mem_filter.mp hvR).2
  have hdepv : deps E v ≠ [] := by
    intro h0
    simpa using (inv.Sspec v hvV hvL).mp h0
  obtain ⟨w, hw⟩ := List.exists_mem_of_ne_nil _ hdepv
  have hvw : (v, w) ∈ E := mem_deps.mp hw
  have hvwg : (v, w) ∈ g.edges := by
    rw [inv.Eeq] at hvw
    exact (List.mem_filter.mp hvw).1
  have hwL : w ∉ L := by
    rw [inv.Eeq] at hvw
    simpa using (List.mem_filter.mp hvw).2
  have hwR : w ∈ R :=
    List.mem_filter.mpr ⟨wf.tgtMem (v, w) hvwg, by simpa using hwL⟩
  exact hvdeps w (mem_deps.mpr hvwg) hwR

/-- When every vertex has been output, no edges remain. -/
theorem final_edges_nil (g : Graph V) (wf : WF g) {E : List (V × V)} {L : List V}
    (inv : Inv g E L []) (hall : ∀ v ∈ g.vertices, v ∈ L) : E = [] := by
  rw [inv.Eeq, List.filter_eq_nil_iff]
  intro e he
  simpa using hall e.2 (wf.tgtMem e he)

/-- A graph all of whose vertices fit into a single dependency-respecting
order is acyclic. -/
theorem acyclic_of_ordered (g : Graph V) (wf : WF g) (L : List V)
    (hall : ∀ v ∈ g.vertices, v ∈ L)
    (horder : ∀ e ∈ g.edges, L.indexOf e.2 < L.indexOf e.1) :
    Acyclic g := by
  intro s hs hsne
  have hsub : ∀ v ∈ s, v ∈ g.vertices :=
    fun v hv => (List.mem_sublists.mp hs).subset hv
  obtain ⟨v, hvarg⟩ : ∃ v, v ∈ s.argmin (fun v => L.indexOf v) := by
    cases h : s.argmin (fun v => L.indexOf v) with
    | none => exact absurd (List.argmin_eq_none.mp h) hsne
    | some v => exact ⟨v, by simp [h]⟩
  refine ⟨v, List.argmin_mem hvarg, ?_⟩
  intro w hw hws
  have hedge : (v, w) ∈ g.edges := mem_deps.mp hw
  have h1 : L.indexOf w < L.indexOf v := horder (v, w) hedge
  have h2 : L.indexOf v ≤ L.indexOf w := List.le_of_mem_argmin hws hvarg
  omega

/-- C2: Kahn's topological sort on a well-formed graph, for every pop order:
with every vertex holding a dependency it reports the no-root error; on an
acyclic graph with a dependency-free vertex it returns a permutation of the
vertices listing every dependency before its dependant; with a
dependency-free vertex but a cycle it reports the cycle error. -/
theorem topological_sort_by_kahn_correct (choose : List V → Nat) (g : Graph V)
    (wf : WF g) :
    ((∀ v ∈ g.vertices, deps g.edges v ≠ []) →
      topological_sort_by_kahn choose g = .error noRootError)
    ∧ (Acyclic g → (∃ v ∈ g.vertices, deps g.edges v = []) →
      ∃ L, topological_sort_by_kahn choose g = .ok L
        ∧ L.Perm g.vertices
        ∧ ∀ e ∈ g.edges, L.indexOf e.2 < L.indexOf e.1)
    ∧ ((∃ v ∈ g.vertices, deps g.edges v = []) → ¬Acyclic g →
      topological_sort_by_kahn choose g = .error cycleError) := by
  have inv0 := inv_init g wf
  have invf := kahnLoop_inv choose g wf (g.vertices.length + 1) g.edges []
    (g.vertices.filter (fun v => decide (deps g.edges v = []))) inv0 (by omega)
  refine ⟨?_, ?_, ?_⟩
  · intro hall
    have hS0 : g.vertices.filter (fun v => decide (deps g.edges v = [])) = [] := by
      rw [List.filter_eq_nil_iff]
      intro v hv
      simpa using hall v hv
    unfold topological_sort_by_kahn
    simp [hS0]
  · rintro hacyc ⟨v, hv, hvdeps⟩
    have hS0ne :
        (g.vertices.filter (fun v => decide (deps g.edges v = []))).isEmpty = false := by
      rw [List.isEmpty_eq_false_iff_exists_mem]
      exact ⟨v, List.mem_filter.mpr ⟨hv, by simpa using hvdeps⟩⟩
    have hall := final_all_mem g wf invf hacyc
    have hE := final_edges_nil g wf invf hall
    refine ⟨(kahnLoop choose (g.vertices.length + 1) g.edges []
      (g.vertices.filter (fun v => decide (deps g.edges v = [])))).1, ?_, ?_, ?_⟩
    · unfold topological_sort_by_kahn
      simp [hS0ne, hE]
    · rw [List.perm_ext_iff_of_nodup invf.Lnodup wf.vnodup]
      intro a
      exact ⟨fun h => invf.Lsub a h, fun h => hall a h⟩
    · intro e he
      exact (invf.Lorder e he (hall e.1 (wf.srcMem e he))).2
  · rintro ⟨v, hv, hvdeps⟩ hnacyc
    have hS0ne :
        (g.vertices.filter (fun v => decide (deps g.edges v = []))).isEmpty = false := by
      rw [List.isEmpty_eq_false_iff_exists_mem]
      exact ⟨v, List.mem_filter.mpr ⟨hv, by simpa using hvdeps⟩⟩
    have hne : (kahnLoop choose (g.vertices.length + 1) g.edges []
        (g.vertices.filter (fun v => decide (deps g.edges v = [])))).2 ≠ [] := by
      intro hE
      have hall : ∀ u ∈ g.vertices,
          u ∈ (kahnLoop choose (g.vertices.length + 1) g.edges []
            (g.vertices.filter (fun v => decide (deps g.edges v = [])))).1 := by
        intro u hu
        by_contra huL
        have h0 := (invf.Sspec u hu huL).mp
        rw [hE] at h0
        simpa [deps] using h0
      have hord := fun e he =>
        (invf.Lorder e he (hall e.1 (wf.srcMem e he))).2
      exact hnacyc (acyclic_of_ordered g wf _ hall hord)
    unfold topological_sort_by_kahn
    simp [hS0ne, hne]

/-- Whenever the sort returns a list, that list is a dependency-respecting
permutation of the vertices (no acyclicity assumption needed: success itself
certifies it). -/
theorem kahn_ok_spec (choose : List V → Nat) (g : Graph V) (wf : WF g)
    {L : List V} (h : topological_sort_by_kahn choose g = .ok L) :
    L.Nodup ∧ (∀ v ∈ g.vertices, v ∈ L) ∧ (∀ x ∈ L, x ∈ g.vertices)
      ∧ ∀ e ∈ g.edges, L.indexOf e.2 < L.indexOf e.1 := by
  have invf := kahnLoop_inv choose g wf (g.vertices.length + 1) g.edges []
    (g.vertices.filter (fun v => decide (deps g.edges v = []))) (inv_init g wf)
    (by omega)
  unfold topological_sort_by_kahn at h
  by_cases hS0 :
      (g.vertices.filter (fun v => decide (deps g.edges v = []))).isEmpty
  · simp [hS0] at h
  · simp only [hS0, Bool.false_eq_true, if_false] at h
    by_cases hE : (kahnLoop choose (g.vertices.length + 1) g.edges []
        (g.vertices.filter (fun v => decide (deps g.edges v = [])))).2 = []
    · simp only [hE, if_true] at h
      cases h
      have hall : ∀ u ∈ g.vertices,
          u ∈ (kahnLoop choose (g.vertices.length + 1) g.edges []
            (g.vertices.filter (fun v => decide (deps g.edges v = [])))).1 := by
        intro u hu
        by_contra huL
        have h0 := (invf.Sspec u hu huL).mp
        rw [hE] at h0
        simpa [deps] using h0
      exact ⟨invf.Lnodup, hall, invf.Lsub,
        fun e he => (invf.Lorder e he (hall e.1 (wf.srcMem e he))).2⟩
    · simp [hE] at h

end Graph

/-- Splitting a list around two members in index order. -/
theorem split_of_indexOf_lt {α : Type} [DecidableEq α] :
    ∀ {L : List α} {u v : α}, u ∈ L → v ∈ L → L.indexOf v < L.indexOf u →
      ∃ l₁ l₂ l₃, L = l₁ ++ v :: (l₂ ++ u :: l₃) := by
  intro L
  induction L with
  | nil => intro u v hu _ _; cases hu
  | cons x xs ih =>
    intro u v hu hv hlt
    have hux : u ≠ x := by
      intro h
      rw [h, List.indexOf_cons_self] at hlt
      omega
    have huxs : u ∈ xs := by
      rcases List.mem_cons.mp hu with h | h
      · exact absurd h hux
      · exact h
    by_cases hvx : v = x
    · subst hvx
      obtain ⟨s, t, hst⟩ := List.append_of_mem huxs
      exact ⟨[], s, t, by simp [hst]⟩
    · have hvxs : v ∈ xs := by
        rcases List.mem_cons.mp hv with h | h
        · exact absurd h hvx
        · exact h
      rw [List.indexOf_cons_ne _ (Ne.symm hvx),
        List.indexOf_cons_ne _ (Ne.symm hux)] at hlt
      obtain ⟨l₁, l₂, l₃, hsplit⟩ := ih huxs hvxs (by omega)
      exact ⟨x :: l₁, l₂, l₃, by simp [hsplit]⟩

/-- `flatMap` over a split list separates the two members' blocks. -/
theorem flatMap_split {α β : Type} (f : α → List β) (l₁ l₂ l₃ : List α)
    (v u : α) :
    (l₁ ++ v :: (l₂ ++ u :: l₃)).flatMap f =
      l₁.flatMap f ++ (f v ++ (l₂.flatMap f ++ (f u ++ l₃.flatMap f))) := by
  simp

/-- The statements an object contributes through its create, update and
maintain generators together. -/
def cumStmts (ctx : Ctx) (o : Obj) : List Stmt :=
  o.stmtsToCreate ctx ++ o.stmtsToUpdate ctx ++ o.stmtsToMaintain ctx

/-- "Every statement of `us` appears after every statement of `vs` in
`stmts`": at every pair of positions holding a `us`-statement and a
`vs`-statement, the former's index is larger. -/
def allAfter (stmts us vs : List Stmt) : Prop :=
  ∀ i j : Fin stmts.length, stmts.get i ∈ us → stmts.get j ∈ vs →
    (j : Nat) < (i : Nat)

/-- C4 (amended): for an edge `u → v` (`u` depends on `v`) and a successful
topological sort, within the create/update pass all of `u`'s statements come
after all of `v`'s, likewise within the maintain pass, and within the drop
pass all of `u`'s drop statements come before all of `v`'s.  (The original
cross-pass comparison fails: see the counterexample.) -/
theorem generate_stmts_edge_order (ctx : Ctx) (st : Obj → ObjectState)
    (choose : List Obj → Nat) (g : Graph Obj) (wf : Graph.WF g)
    {u v : Obj} (he : (u, v) ∈ g.edges) {order : List Obj}
    (hok : Graph.topological_sort_by_kahn choose g = .ok order) :
    (∃ l₁ l₂ l₃, order.flatMap (createPassObj ctx st)
        = l₁ ++ (createPassObj ctx st v ++ (l₂ ++ (createPassObj ctx st u ++ l₃))))
    ∧ (∃ l₁ l₂ l₃, order.flatMap (maintainPassObj ctx)
        = l₁ ++ (maintainPassObj ctx v ++ (l₂ ++ (maintainPassObj ctx u ++ l₃))))
    ∧ (∃ l₁ l₂ l₃, order.reverse.flatMap (dropPassObj ctx st)
        = l₁ ++ (dropPassObj ctx st u ++ (l₂ ++ (dropPassObj ctx st v ++ l₃)))) := by
  obtain ⟨hnodup, hall, hsub, hord⟩ := Graph.kahn_ok_spec choose g wf hok
  have hu : u ∈ order := hall u (wf.srcMem (u, v) he)
  have hv : v ∈ order := hall v (wf.tgtMem (u, v) he)
  have hlt : order.indexOf v < order.indexOf u := hord (u, v) he
  obtain ⟨l₁, l₂, l₃, hsplit⟩ := split_of_indexOf_lt hu hv hlt
  have hrev : order.reverse = l₃.reverse ++ u :: (l₂.reverse ++ v :: l₁.reverse) := by
    rw [hsplit]
    simp
  refine ⟨⟨l₁.flatMap (createPassObj ctx st), l₂.flatMap (createPassObj ctx st),
      l₃.flatMap (createPassObj ctx st), by rw [hsplit]; exact flatMap_split _ _ _ _ _ _⟩,
    ⟨l₁.flatMap (maintainPassObj ctx), l₂.flatMap (maintainPassObj ctx),
      l₃.flatMap (maintainPassObj ctx), by rw [hsplit]; exact flatMap_split _ _ _ _ _ _⟩,
    ⟨l₃.reverse.flatMap (dropPassObj ctx st), l₂.reverse.flatMap (dropPassObj ctx st),
      l₁.reverse.flatMap (dropPassObj ctx st), by
        rw [hrev]; exact flatMap_split _ _ _ _ _ _⟩⟩

/-- Desired `User(peter)` used in the ordering counterexample. -/
def userPeter : Obj := .user "peter" none [] false true

/-- Desired `GroupUser(devops+peter)` link, which depends on `User(peter)`. -/
def guPeter : Obj := .groupUser "devops" "peter" true

/-- Two-vertex dependency graph: the membership link depends on the user. -/
def gC4 : Graph Obj := ⟨[userPeter, guPeter], [(guPeter, userPeter)]⟩

/-- A context with no master connection (the md5 function is irrelevant
here). -/
def ctx0 : Ctx := ⟨none, none, fun _ => ""⟩

/-- An entirely empty observed state: nothing exists on the server. -/
def emptyState : ServerState := ⟨[], [], [], [], [], [], [], [], []⟩

/-- C4 counterexample: on the graph `gC4` with edge
`GroupUser(devops+peter) → User(peter)` and empty observed state, the
dependant's `ALTER GROUP … ADD USER` (create pass) appears *before* the
dependency's `ALTER USER` (maintain pass), so it is false that every
create/update/maintain statement of the dependant appears after every such
statement of the dependency. -/
theorem generate_stmts_edge_order_counterexample :
    (guPeter, userPeter) ∈ gC4.edges
    ∧ Graph.topological_sort_by_kahn (fun _ => 0) gC4 = .ok [userPeter, guPeter]
    ∧ ¬ allAfter (generateStmts ctx0 [userPeter, guPeter] emptyState.get)
        (cumStmts ctx0 guPeter) (cumStmts ctx0 userPeter) := by
  refine ⟨by decide, by rfl, ?_⟩
  intro h
  have := h ⟨1, by decide⟩ ⟨2, by decide⟩ (by decide) (by decide)
  simp at this

/-- Witness for the amended C4 theorem at the concrete graph `gC4` and empty
observed state. -/
theorem generate_stmts_edge_order_witness :
    (∃ l₁ l₂ l₃, ([userPeter, guPeter] : List Obj).flatMap
          (createPassObj ctx0 emptyState.get)
        = l₁ ++ (createPassObj ctx0 emptyState.get userPeter
            ++ (l₂ ++ (createPassObj ctx0 emptyState.get guPeter ++ l₃))))
    ∧ (∃ l₁ l₂ l₃, ([userPeter, guPeter] : List Obj).flatMap (maintainPassObj ctx0)
        = l₁ ++ (maintainPassObj ctx0 userPeter
            ++ (l₂ ++ (maintainPassObj ctx0 guPeter ++ l₃))))
    ∧ (∃ l₁ l₂ l₃, ([userPeter, guPeter] : List Obj).reverse.flatMap
          (dropPassObj ctx0 emptyState.get)
        = l₁ ++ (dropPassObj ctx0 emptyState.get guPeter
            ++ (l₂ ++ (dropPassObj ctx0 emptyState.get userPeter ++ l₃)))) :=
  generate_stmts_edge_order ctx0 emptyState.get (fun _ => 0) gC4
    ⟨by decide, by decide, by decide, by decide⟩ (by decide) (by rfl)

/-! ## Owner-link classification (C5) -/

/-- C5: the classification the engine's `ServerState` uses for `DatabaseOwner`
and `SchemaOwner` links is `IS_PRESENT` exactly when the parent object exists
with the desired owner, and `IS_ABSENT` in every other case — never
`IS_DIFFERENT` (the source downgrades the mismatch with a TODO comment). -/
theorem owner_links_never_different (st : ServerState) (d s o : String)
    (p p' : Bool) :
    (st.get (Obj.databaseOwner d o p) = .IS_PRESENT ↔
      lookup st.databases d = some o)
    ∧ (st.get (Obj.databaseOwner d o p) ≠ .IS_PRESENT →
      st.get (Obj.databaseOwner d o p) = .IS_ABSENT)
    ∧ (st.get (Obj.schemaOwner d s o p') = .IS_PRESENT ↔
      ∃ sdb, lookup st.schemas d = some sdb ∧ lookup sdb s = some o)
    ∧ (st.get (Obj.schemaOwner d s o p') ≠ .IS_PRESENT →
      st.get (Obj.schemaOwner d s o p') = .IS_ABSENT) := by
  refine ⟨?_, ?_, ?_, ?_⟩
  · simp only [ServerState.get, ServerState.get_databaseowner]
    cases h : lookup st.databases d with
    | none => simp [h]
    | some ow =>
        by_cases how : ow = o
        · simp [h, how]
        · simp only [h, how, if_false]
          constructor
          · intro hcon; cases hcon
          · intro hcon
            injection hcon with hcon'
            exact absurd hcon' how
  · simp only [ServerState.get, ServerState.get_databaseowner]
    cases h : lookup st.databases d with
    | none => simp
    | some ow => by_cases how : ow = o <;> simp [how]
  · simp only [ServerState.get, ServerState.get_schemaowner]
    cases h : lookup st.schemas d with
    | none => simp [h]
    | some sdb =>
        cases h2 : lookup sdb s with
        | none => simp [h, h2]
        | some ow =>
            by_cases how : o = ow
            · simp [h, h2, how]
            · simp only [h, h2, how, if_false]
              constructor
              · intro hcon; cases hcon
              · rintro ⟨sdb', hsdb', how'⟩
                injection hsdb' with heq
                subst heq
                rw [h2] at how'
                injection how' with h3
                exact absurd h3.symm how
  · simp only [ServerState.get, ServerState.get_schemaowner]
    cases h : lookup st.schemas d with
    | none => simp
    | some sdb =>
        cases h2 : lookup sdb s with
        | none => simp [h2]
        | some ow => by_cases how : o = ow <;> simp [h2, how]

/-- Observed state in which `sales` exists but is owned by `devops`, and
schema `sales.private` is owned by `devops` as well. -/
def stOwned : ServerState :=
  ⟨[("sales", "devops")], [("sales", [("private", "devops")])],
    [], [], [], [], [], [], []⟩

/-- Witness for C5: a mismatching owner (`alpha` desired, `devops` observed)
classifies as `IS_ABSENT`, for both link kinds. -/
theorem owner_links_never_different_witness :
    stOwned.get (Obj.databaseOwner "sales" "alpha" true) = .IS_ABSENT
    ∧ stOwned.get (Obj.schemaOwner "sales" "private" "alpha" true) = .IS_ABSENT :=
  ⟨(owner_links_never_different stOwned "sales" "private" "alpha" true true).2.1
      (by decide),
    (owner_links_never_different stOwned "sales" "private" "alpha" true true).2.2.2
      (by decide)⟩

/-! ## Privilege statement shapes (C6) -/

/-- C6 (amended): the create generators of the three privilege classes emit
exactly one transaction — `REVOKE ALL` followed by a `GRANT` of exactly the
configured privileges when the configured set is not the full set, the
`GRANT` alone when it is; the drop generators of `DatabasePrivilege` and
`SchemaTablesPrivilege` revoke exactly the configured privileges, but
`SchemaPrivilege.stmts_to_drop` emits `REVOKE ALL` (not `REVOKE <privs>`,
contrary to the original claim — see the counterexample). -/
theorem privilege_stmt_shapes (ctx : Ctx) (d s gr : String)
    (dprivs sprivs tprivs : Finset String) (p : Bool) :
    ((Obj.databasePrivilege d gr dprivs p).stmtsToCreate ctx =
      [Stmt.transaction
        ((if dprivs ≠ DatabasePrivilege.ALL
          then [Stmt.text (Query.revokeAllOnDatabase d gr) none] else [])
          ++ [Stmt.text (Query.grantOnDatabase dprivs d gr) none]) none])
    ∧ (Obj.databasePrivilege d gr dprivs p).stmtsToDrop ctx =
      [Stmt.text (Query.revokeOnDatabase dprivs d gr) none]
    ∧ ((Obj.schemaPrivilege d s gr sprivs p).stmtsToCreate ctx =
      [Stmt.transaction
        ((if sprivs ≠ SchemaPrivilege.ALL
          then [Stmt.text (Query.revokeAllOnSchema s gr) (some d)] else [])
          ++ [Stmt.text (Query.grantOnSchema sprivs s gr) (some d)]) (some d)])
    ∧ (Obj.schemaPrivilege d s gr sprivs p).stmtsToDrop ctx =
      [Stmt.text (Query.revokeAllOnSchema s gr) (some d)]
    ∧ ((Obj.schemaTablesPrivilege d s gr tprivs p).stmtsToCreate ctx =
      [Stmt.transaction
        ((if tprivs ≠ SchemaTablesPrivilege.ALL
          then [Stmt.text (Query.revokeAllOnAllTables s gr) (some d)] else [])
          ++ [Stmt.text (Query.grantOnAllTables tprivs s gr) (some d)]) (some d)])
    ∧ (Obj.schemaTablesPrivilege d s gr tprivs p).stmtsToDrop ctx =
      [Stmt.text (Query.revokeOnAllTables tprivs s gr) (some d)] := by
  refine ⟨rfl, rfl, rfl, rfl, rfl, rfl⟩

/-- C6 counterexample: for `SchemaPrivilege(datascience@sales.private:CREATE)`
(a proper subset of `{CREATE, USAGE}`) the drop generator emits
`REVOKE ALL ON SCHEMA`, not a `REVOKE CREATE ON SCHEMA` of the configured
privileges. -/
theorem schemaprivilege_drop_counterexample :
    (Obj.schemaPrivilege "sales" "private" "datascience" {"CREATE"} false).stmtsToDrop
        ctx0
      = [Stmt.text (Query.revokeAllOnSchema "private" "datascience") (some "sales")]
    ∧ (Obj.schemaPrivilege "sales" "private" "datascience" {"CREATE"} false).stmtsToDrop
        ctx0
      ≠ [Stmt.text (Query.revokeOnSchema {"CREATE"} "private" "datascience")
          (some "sales")] := by
  decide

/-! ## Role create/drop statements and the forbidden-role guard (C7) -/

/-- C7: for a forbidden role name (`public`/`postgres` case-insensitively,
`pg_`-prefixed, or the master user) both generators of `Group` and `User`
emit nothing; for every other role the drop generator emits exactly the
reassign, the two public-schema revokes (`ALL_DATABASES` and then the master
database) and the `DROP GROUP|USER`, in that order. -/
theorem role_create_drop_stmts (ctx : Ctx) (name : String) (pw : Option String)
    (gs : List String) (inh p : Bool) :
    if strToLower name = "public" ∨ strToLower name = "postgres"
        ∨ strStartsWith (strToLower name) "pg_" = true
        ∨ ctx.masterUser = some name then
      (Obj.group name p).stmtsToCreate ctx = []
      ∧ (Obj.group name p).stmtsToDrop ctx = []
      ∧ (Obj.user name pw gs inh p).stmtsToCreate ctx = []
      ∧ (Obj.user name pw gs inh p).stmtsToDrop ctx = []
    else
      (Obj.group name p).stmtsToCreate ctx = [Stmt.create "GROUP" name none]
      ∧ (Obj.group name p).stmtsToDrop ctx =
        [ Stmt.text (Query.reassignOwned name ctx.masterUser) (some ALL_DATABASES),
          Stmt.text (Query.revokeAllOnSchemaPublicFrom name) (some ALL_DATABASES),
          Stmt.text (Query.revokeAllOnSchemaPublicFrom name) ctx.masterDatabase,
          Stmt.drop "GROUP" name none ]
      ∧ (Obj.user name pw gs inh p).stmtsToCreate ctx = [Stmt.create "USER" name none]
      ∧ (Obj.user name pw gs inh p).stmtsToDrop ctx =
        [ Stmt.text (Query.reassignOwned name ctx.masterUser) (some ALL_DATABASES),
          Stmt.text (Query.revokeAllOnSchemaPublicFrom name) (some ALL_DATABASES),
          Stmt.text (Query.revokeAllOnSchemaPublicFrom name) ctx.masterDatabase,
          Stmt.drop "USER" name none ] := by
  by_cases hcond : strToLower name = "public" ∨ strToLower name = "postgres"
      ∨ strStartsWith (strToLower name) "pg_" = true
      ∨ ctx.masterUser = some name
  · rw [if_pos hcond]
    have hm : isManagedRole ctx name = false := by
      unfold isManagedRole
      by_cases h1 : strToLower name = "public" ∨ strToLower name = "postgres"
      · simp [h1]
      · rcases hcond with h | h | h | h
        · exact absurd (Or.inl h) h1
        · exact absurd (Or.inr h) h1
        · simp [h1, h]
        · by_cases h2 : strStartsWith (strToLower name) "pg_" = true
          · simp [h1, h2]
          · simp [h1, h2, h]
    refine ⟨?_, ?_, ?_, ?_⟩ <;>
      simp [Obj.stmtsToCreate, Obj.stmtsToDrop, hm]
  · rw [if_neg hcond]
    have hm : isManagedRole ctx name = true := by
      unfold isManagedRole
      push_neg at hcond
      obtain ⟨h1, h2, h3, h4⟩ := hcond
      simp [h1, h2, h3, h4]
    refine ⟨?_, ?_, ?_, ?_⟩ <;>
      simp [Obj.stmtsToCreate, Obj.stmtsToDrop, Obj.roleDropStmts, hm]

/-- Witness for C7: the reserved `postgres` group yields nothing; the managed
group `devops` yields the four-statement drop sequence. -/
theorem role_create_drop_stmts_witness :
    (Obj.group "postgres" false).stmtsToDrop ctx0 = []
    ∧ (Obj.group "devops" false).stmtsToDrop ctx0 =
      [ Stmt.text (Query.reassignOwned "devops" none) (some ALL_DATABASES),
        Stmt.text (Query.revokeAllOnSchemaPublicFrom "devops") (some ALL_DATABASES),
        Stmt.text (Query.revokeAllOnSchemaPublicFrom "devops") none,
        Stmt.drop "GROUP" "devops" none ] := by
  have h1 := role_create_drop_stmts ctx0 "postgres" none [] false false
  have h2 := role_create_drop_stmts ctx0 "devops" none [] false false
  rw [if_pos (by decide)] at h1
  rw [if_neg (by decide)] at h2
  exact ⟨h1.2.1, h2.2.1⟩

/-! ## User maintain statement (C8) -/

/-- C8 (amended): `User.stmts_to_maintain` yields exactly one `ALTER USER`
statement whose flag list is `NOCREATEDB` followed by `INHERIT`/`NOINHERIT`
according to the `inherit` flag (the engine's `objects/role.py` emits no
`NOSUPERUSER` — only the legacy monolithic `objects.py` does), and whose
password clause is bare `LOGIN` when no password is configured and otherwise
carries the configured value when it already starts with `md5`, else `"md5"`
followed by the hex md5 digest of the password concatenated with the
username. -/
theorem user_maintain_stmt (ctx : Ctx) (name : String) (pw : Option String)
    (gs : List String) (inh p : Bool) :
    (Obj.user name pw gs inh p).stmtsToMaintain ctx =
      [Stmt.text
        (Query.alterUser name
          ["NOCREATEDB", if inh then "INHERIT" else "NOINHERIT"]
          (match pw with
            | none => none
            | some pass =>
                if pass = "" then none
                else if strStartsWith pass "md5" then some pass
                else some ("md5" ++ ctx.md5hex (pass ++ name)))) none] := by
  cases pw <;> rfl

/-- C8 counterexample: the maintain statement of `User(johnny)` carries no
`NOSUPERUSER` flag, so the original claim (which requires one) is false. -/
theorem user_maintain_nosuperuser_counterexample :
    ¬ ∃ (flags : List String) (pwc : Option String),
      (Obj.user "johnny" none [] false true).stmtsToMaintain ctx0
        = [Stmt.text (Query.alterUser "johnny" flags pwc) none]
      ∧ "NOSUPERUSER" ∈ flags := by
  rintro ⟨flags, pwc, heq, hns⟩
  have hconc : (Obj.user "johnny" none [] false true).stmtsToMaintain ctx0
      = [Stmt.text (Query.alterUser "johnny" ["NOCREATEDB", "NOINHERIT"] none)
          none] := rfl
  rw [hconc] at heq
  injection heq with h1 h2
  injection h1 with h3 h4
  injection h3 with h5 h6 h7
  rw [← h6] at hns
  simp at hns

/-! ## Implicit objects at Setup construction (C9) -/

/-- `Setup.get_implicit_objects` (setup.py lines 173–184): only the `public`
pseudo-group is returned; the master connection plays no part. -/
def get_implicit_objects : List Obj := [Obj.group "public" true]

/-- The registry contents right after `Setup.__init__`: the key and
`present` flag of each implicit object. -/
def initialRegistry : List (String × Bool) :=
  get_implicit_objects.map (fun o => (o.key, o.present))

/-- The per-dependency checks of `Setup.register` (setup.py lines 216–224):
each dependency key must already be registered, and a present object
requires each dependency to be present. -/
def checkDeps (reg : List (String × Bool)) (present : Bool) :
    List String → Except String Unit
  | [] => .ok ()
  | k :: rest =>
      if (lookup reg k).isNone then
        .error (k ++ " is not managed by this setup")
      else if present && !((lookup reg k).getD false) then
        .error (k ++ " is marked as not present")
      else checkDeps reg present rest

/-- `Setup.register` over registry keys: refuse duplicates (the `assert`),
check every dependency, then add the object. -/
def register (reg : List (String × Bool)) (key : String) (present : Bool)
    (depKeys : List String) : Except String (List (String × Bool)) :=
  if (lookup reg key).isSome then .error (key ++ " is already registered")
  else
    match checkDeps reg present depKeys with
    | .error e => .error e
    | .ok _ => .ok (reg ++ [(key, present)])

/-- C9 (amended): constructing a `Setup` pre-registers exactly the
pseudo-group `public`, which a later-registered object can name as a
dependency without declaring it; no `User` object (for the master login or
any other name) is pre-registered. -/
theorem implicit_objects_public_only :
    initialRegistry = [((Obj.group "public" true).key, true)]
    ∧ lookup initialRegistry (Obj.group "public" true).key = some true
    ∧ register initialRegistry (Obj.database "sales" (some "public") true).key true
        [(Obj.group "public" true).key]
      = .ok (initialRegistry
          ++ [((Obj.database "sales" (some "public") true).key, true)])
    ∧ ∀ mu : String,
        lookup initialRegistry (Obj.user mu none [] false true).key = none := by
  refine ⟨rfl, rfl, rfl, ?_⟩
  intro mu
  show lookup [("Group(public)", true)] ("User(" ++ mu ++ ")") = none
  unfold lookup
  rw [if_neg]
  · rfl
  · intro h
    have hdata := congrArg String.data h
    rw [String.data_append, String.data_append] at hdata
    have hhead := congrArg List.head? hdata
    simp at hhead

/-- C9 counterexample: with master login `admin`, the fresh registry holds no
`User(admin)` entry, and registering an object that depends on `User(admin)`
fails — so the claim that both `public` and the master-login user are
pre-registered is false. -/
theorem implicit_master_user_counterexample :
    lookup initialRegistry (Obj.user "admin" none [] false true).key = none
    ∧ (register initialRegistry (Obj.database "sales" (some "admin") true).key true
        [(Obj.user "admin" none [] false true).key]).isOk = false := by
  decide

/-! ## Absent-but-different objects are skipped (C10) -/

/-- Dropping elements whose image under `f` is empty leaves a `flatMap`
unchanged. -/
theorem flatMap_filter_ne {α β : Type} [DecidableEq α] (l : List α)
    (f : α → List β) (o : α) (h : f o = []) :
    l.flatMap f = (l.filter (fun x => !(x == o))).flatMap f := by
  induction l with
  | nil => rfl
  | cons x xs ih =>
      by_cases hx : x = o
      · subst hx
        simp [List.filter_cons, h, ih]
      · simp [List.filter_cons, hx, ih]

/-- C10: an object desired absent but classified `IS_DIFFERENT` contributes
nothing: the create/update pass skips it (it requires `present`), the
maintain pass skips it (likewise), and the drop pass skips it (it requires
`IS_PRESENT` or `IS_UNKNOWN`); removing the object from the ordered list
leaves the generated sequence unchanged. -/
theorem different_absent_emits_nothing (ctx : Ctx) (objects : List Obj)
    (st : Obj → ObjectState) (o : Obj)
    (hdiff : st o = .IS_DIFFERENT) (habs : o.present = false) :
    createPassObj ctx st o = []
    ∧ maintainPassObj ctx o = []
    ∧ dropPassObj ctx st o = []
    ∧ generateStmts ctx objects st
      = generateStmts ctx (objects.filter (fun x => !(x == o))) st := by
  have h1 : createPassObj ctx st o = [] := by
    simp [createPassObj, hdiff, habs, ObjectState.is_absent,
      ObjectState.is_unknown, ObjectState.is_different]
  have h2 : maintainPassObj ctx o = [] := by
    simp [maintainPassObj, habs]
  have h3 : dropPassObj ctx st o = [] := by
    simp [dropPassObj, hdiff, ObjectState.is_present, ObjectState.is_unknown]
  refine ⟨h1, h2, h3, ?_⟩
  unfold generateStmts
  rw [← flatMap_filter_ne objects (createPassObj ctx st) o h1,
    ← flatMap_filter_ne objects (maintainPassObj ctx) o h2,
    ← List.filter_reverse,
    ← flatMap_filter_ne objects.reverse (dropPassObj ctx st) o h3]

/-- Observed state in which `datascience` holds `{CONNECT}` on `sales`. -/
def stConnectOnly : ServerState :=
  ⟨[("sales", "devops")], [], [], [], [],
    [("sales", [("datascience", {"CONNECT"})])], [], [], []⟩

/-- A desired-absent `DatabasePrivilege` whose configured set differs from
the observed one, so the engine classifies it `IS_DIFFERENT`. -/
def dpAbsent : Obj :=
  .databasePrivilege "sales" "datascience" {"CONNECT", "TEMPORARY"} false

/-- Witness for C10 at a reachable classification: the engine's own
classifier yields `IS_DIFFERENT` for `dpAbsent` under `stConnectOnly`, and
the object contributes no statements. -/
theorem different_absent_emits_nothing_witness :
    stConnectOnly.get dpAbsent = .IS_DIFFERENT
    ∧ createPassObj ctx0 stConnectOnly.get dpAbsent = []
    ∧ maintainPassObj ctx0 dpAbsent = []
    ∧ dropPassObj ctx0 stConnectOnly.get dpAbsent = []
    ∧ generateStmts ctx0 [dpAbsent] stConnectOnly.get
      = generateStmts ctx0 ([dpAbsent].filter (fun x => !(x == dpAbsent)))
          stConnectOnly.get := by
  have h := different_absent_emits_nothing ctx0 [dpAbsent] stConnectOnly.get
    dpAbsent (by decide) (by decide)
  exact ⟨by decide, h.1, h.2.1, h.2.2.1, h.2.2.2⟩

/-! ## Idempotence of the second run (C3) -/

/-- C3 (amended): if the classification is unchanged between two runs and on
the second run every desired-present object classifies `IS_PRESENT` and no
desired-absent object classifies `IS_PRESENT` *or `IS_UNKNOWN`*, then the
second run emits exactly the maintain statements of the present objects —
the same maintain statements as the first run — and no create, update or
drop statements.  (The original claim, which allowed desired-absent objects
to classify `IS_UNKNOWN`, is refuted by the counterexample: such objects
re-emit their drop statements every run.) -/
theorem second_run_maintains_only (ctx : Ctx) (objects : List Obj)
    (st₁ st₂ : Obj → ObjectState)
    (hsame : ∀ o ∈ objects, st₁ o = st₂ o)
    (hpres : ∀ o ∈ objects, o.present = true → st₂ o = .IS_PRESENT)
    (habs : ∀ o ∈ objects, o.present = false →
      st₂ o ≠ .IS_PRESENT ∧ st₂ o ≠ .IS_UNKNOWN) :
    generateStmts ctx objects st₂ = objects.flatMap (maintainPassObj ctx)
    ∧ generateStmts ctx objects st₁ = generateStmts ctx objects st₂ := by
  have hcreate : ∀ o ∈ objects, createPassObj ctx st₂ o = [] := by
    intro o ho
    cases hp : o.present with
    | true =>
        simp [createPassObj, hpres o ho hp, hp, ObjectState.is_absent,
          ObjectState.is_unknown, ObjectState.is_different]
    | false =>
        simp [createPassObj, hp]
  have hdrop : ∀ o ∈ objects, dropPassObj ctx st₂ o = [] := by
    intro o ho
    cases hp : o.present with
    | true => simp [dropPassObj, hp]
    | false =>
        obtain ⟨hnp, hnu⟩ := habs o ho hp
        cases hst : st₂ o <;>
          simp_all [dropPassObj, ObjectState.is_present, ObjectState.is_unknown]
  constructor
  · unfold generateStmts
    have e1 : objects.flatMap (createPassObj ctx st₂) = [] := by
      rw [List.flatMap_congr hcreate]
      simp
    have e3 : objects.reverse.flatMap (dropPassObj ctx st₂) = [] := by
      rw [List.flatMap_congr (fun o ho => hdrop o (List.mem_reverse.mp ho))]
      simp
    rw [e1, e3]
    simp
  · unfold generateStmts
    have c1 : objects.flatMap (createPassObj ctx st₁)
        = objects.flatMap (createPassObj ctx st₂) := by
      apply List.flatMap_congr
      intro o ho
      simp [createPassObj, hsame o ho]
    have c3 : objects.reverse.flatMap (dropPassObj ctx st₁)
        = objects.reverse.flatMap (dropPassObj ctx st₂) := by
      apply List.flatMap_congr
      intro o ho
      simp [dropPassObj, hsame o (List.mem_reverse.mp ho)]
    rw [c1, c3]

/-- Desired-absent `DefaultPrivilege` for the idempotence counterexample. -/
def dpDefAbsent : Obj :=
  .defaultPrivilege "db" "sch" "ds" {"SELECT"} true "owner" false

/-- Observed state in which the grantor role and the target schema exist, so
the default privilege classifies `IS_UNKNOWN` forever. -/
def stDefault : ServerState :=
  ⟨[("db", "someone")], [("db", [("sch", "someone")])], [], [], [], [],
    ["owner"], [], []⟩

/-- C3 counterexample: with the desired-absent `DefaultPrivilege` classified
`IS_UNKNOWN` (grantor and schema exist), both hypotheses of the original
claim hold — the classification is the same on both runs and the object is
not `IS_PRESENT` — yet the run emits its drop statement, so the run is not
maintain-only. -/
theorem second_run_counterexample :
    stDefault.get dpDefAbsent = .IS_UNKNOWN
    ∧ (∀ o ∈ [dpDefAbsent], o.present = true → stDefault.get o = .IS_PRESENT)
    ∧ (∀ o ∈ [dpDefAbsent], o.present = false → stDefault.get o ≠ .IS_PRESENT)
    ∧ generateStmts ctx0 [dpDefAbsent] stDefault.get
      ≠ [dpDefAbsent].flatMap (maintainPassObj ctx0) := by
  decide

/-- Observed state in which user `peter` exists (and nothing else), matching
the desired state of the second-run witness. -/
def stOwnedUsers : ServerState :=
  ⟨[], [], [], [], [], [], [], ["peter"], []⟩

/-- Witness for the amended C3 theorem on a present user and an absent,
`IS_ABSENT`-classified group. -/
theorem second_run_maintains_only_witness :
    generateStmts ctx0 [userPeter, Obj.group "old" false] stOwnedUsers.get
      = [userPeter, Obj.group "old" false].flatMap (maintainPassObj ctx0)
    ∧ generateStmts ctx0 [userPeter, Obj.group "old" false] stOwnedUsers.get
      = generateStmts ctx0 [userPeter, Obj.group "old" false] stOwnedUsers.get :=
  ⟨(second_run_maintains_only ctx0 [userPeter, Obj.group "old" false]
      stOwnedUsers.get stOwnedUsers.get (fun _ _ => rfl)
      (by decide) (by decide)).1,
    rfl⟩

/-- Two-vertex graph over `Nat` for the sort witness: `0` depends on `1`. -/
def gNat : Graph Nat := ⟨[0, 1], [(0, 1)]⟩

/-- Witness for the C2 theorem: on the concrete acyclic graph `gNat` the sort
succeeds with a dependency-respecting permutation. -/
theorem topological_sort_by_kahn_witness :
    ∃ L, Graph.topological_sort_by_kahn (fun _ => 0) gNat = .ok L
      ∧ L.Perm gNat.vertices
      ∧ ∀ e ∈ gNat.edges, L.indexOf e.2 < L.indexOf e.1 :=
  (Graph.topological_sort_by_kahn_correct (fun _ => 0) gNat
    ⟨by decide, by decide, by decide, by decide⟩).2.1 (by decide) (by decide)

end PgObjects
